import Mathlib

/-!
Shallow embedding of the session-state subsystem of the chatbot backend:
the Redis-backed cache tier (`SessionService`), the MySQL durable tier
(`SessionStorageService` for per-turn rows, `TranscriptService` for
transcripts), the `ChatService` glue, and the `POST /api/chat` route
handler from `chatbot.js`.

Modelling conventions, shared by all definitions below:

* The embedding models the Redis-connected branch of `SessionService`
  (`isConnected && client` true), which is the primary, non-degraded mode
  the specification describes.  The in-process fallback map is a degraded
  mode no claim under verification depends on.
* Redis lists are Lean lists with the head playing the role of the Redis
  list head, so `lPush` is `cons` and `lRange i j` reads from the head.
  Negative `lRange` indices follow the Redis convention (counted from the
  end of the list), which matters because `getSessionHistory` passes
  `limit - 1` as the end index.
* The Redis keyspace is an association list keyed by session id; a key is
  written by removing every existing binding and consing the new one, and
  `DEL` removes every binding for the key.
* Wall-clock timestamps and TTLs are not modelled: chronological order is
  represented by list position (MySQL `AUTO_INCREMENT` ids and
  `CURRENT_TIMESTAMP` defaults are monotone across sequential inserts,
  and turn timestamps are monotone within a session under the
  single-writer assumption).  The transcript database carries a logical
  clock used for `created_at` / message `timestamp` columns where the SQL
  queries order by them.
* Strings are ASCII for the purposes of `.length`, `charAt`,
  `toUpperCase` and the `\w` character class, so JS UTF-16 lengths agree
  with Lean character counts on every input considered here.
-/

namespace Backend

/-- Role column of the durable `chat_messages` table: `ENUM('user','bot')`. -/
inductive DRole where
  | user
  | bot
deriving DecidableEq, Repr

/-- Role column of the transcript `messages` table: `ENUM('user','assistant')`. -/
inductive TRole where
  | user
  | assistant
deriving DecidableEq, Repr

/-- One cached turn, as built by `SessionService.addMessage`
(`{id, text, isUser, timestamp, sources}`); the random `id` and the
wall-clock `timestamp` are not modelled (see the module conventions). -/
structure Msg where
  text : String
  isUser : Bool
  sources : List String
deriving DecidableEq, Repr

/-- One row of the durable `chat_messages` table
(`session_id`, `message`, `role`); list position stands for the
`timestamp` / auto-increment order. -/
structure DRow where
  sessionId : String
  message : String
  role : DRole
deriving DecidableEq, Repr

/-- The Redis keyspace used by `SessionService`: the `session:{id}` list
keys and the `session_title:{id}` string keys. -/
structure CacheState where
  sessions : List (String × List Msg)
  titles : List (String × String)
deriving DecidableEq, Repr

/-- Value bound to key `k`, when present (Redis `GET` / key read). -/
def lookupKey (k : String) : List (String × α) → Option α
  | [] => none
  | p :: t => if p.1 = k then some p.2 else lookupKey k t

/-- Remove every binding of key `k` (Redis `DEL k`). -/
def eraseKey (k : String) : List (String × α) → List (String × α)
  | [] => []
  | p :: t => if p.1 = k then eraseKey k t else p :: eraseKey k t

/-- Overwrite the binding of key `k` with `v` (Redis `SET` / whole-list write). -/
def setKey (k : String) (v : α) (l : List (String × α)) : List (String × α) :=
  (k, v) :: eraseKey k l

/-- Redis `LRANGE key start stop` on a materialised list: negative indices
count from the end (`-1` is the last element), the result is empty when
the effective start exceeds the effective stop, and out-of-range ends are
clamped. -/
def lrange (l : List α) (start stop : Int) : List α :=
  let len : Int := l.length
  let s : Int := if start < 0 then max (len + start) 0 else start
  let e : Int := if stop < 0 then len + stop else stop
  if s > e then [] else (l.take (e.toNat + 1)).drop s.toNat

namespace SessionService

/-- The cached turn list of a session (`[]` when the key is absent, as
Redis reports an empty range for a missing key). -/
def getSess (c : CacheState) (sid : String) : List Msg :=
  (lookupKey sid c.sessions).getD []

/-- `SessionService.addMessage` (Redis branch): builds the message record
and `lPush`es it onto `session:{sessionId}` (the TTL refresh `EXPIRE`
call has no modelled effect). -/
def addMessage (c : CacheState) (sid : String) (text : String) (isUser : Bool)
    (sources : List String) : CacheState × Msg :=
  let messageData : Msg := { text := text, isUser := isUser, sources := sources }
  ({ c with sessions := setKey sid (messageData :: getSess c sid) c.sessions }, messageData)

/-- `SessionService.getSessionHistory` (Redis branch):
`lRange(key, 0, limit - 1)` then reverse, so the newest `limit` entries
come back in chronological order under the live newest-at-head
convention. -/
def getSessionHistory (c : CacheState) (sid : String) (limit : Nat) : List Msg :=
  (lrange (getSess c sid) 0 ((limit : Int) - 1)).reverse

/-- `SessionService.sessionExists` (Redis branch): `EXISTS session:{id}`. -/
def sessionExists (c : CacheState) (sid : String) : Bool :=
  (lookupKey sid c.sessions).isSome

/-- `SessionService.clearSession` (Redis branch): `DEL session:{id}` only;
the `session_title:{id}` key is not touched. -/
def clearSession (c : CacheState) (sid : String) : CacheState :=
  { c with sessions := eraseKey sid c.sessions }

/-- `SessionService.setSessionTitle` (Redis branch):
`SET session_title:{id} title`. -/
def setSessionTitle (c : CacheState) (sid : String) (title : String) : CacheState :=
  { c with titles := setKey sid title c.titles }

/-- `SessionService.generateTitleFromId`: `Chat ` followed by
`sessionId.substring(5, 12)` (JS `substring` clamps to the string length). -/
def generateTitleFromId (sid : String) : String :=
  "Chat " ++ String.mk ((sid.data.drop 5).take 7)

/-- JS whitespace for `String.prototype.trim` (ASCII portion). -/
def isJsSpace (ch : Char) : Bool :=
  ch = ' ' || ch = '\t' || ch = '\n' || ch = '\r'

/-- JS `text.trim()`. -/
def jsTrim (s : String) : String :=
  String.mk (((s.data.dropWhile isJsSpace).reverse.dropWhile isJsSpace).reverse)

/-- A character kept by the sanitising `replace(/[^\w\s.,!?-]/g, '')`:
word characters, whitespace, and `.,!?-`. -/
def keepTitleChar (ch : Char) : Bool :=
  ch.isAlphanum || ch = '_' || isJsSpace ch ||
    ch = '.' || ch = ',' || ch = '!' || ch = '?' || ch = '-'

/-- `SessionService.generateTitleFromMessage` on a string message: trim,
truncate to 47 characters plus `...` when longer than 50, strip characters
outside `[\w\s.,!?-]`, fall back to `New Chat` below 3 characters, and
capitalise the first character. -/
def generateTitleFromMessage (text : String) : String :=
  let t0 := jsTrim text
  let t1 := if t0.length > 50 then String.mk (t0.data.take 47) ++ "..." else t0
  let t2 := String.mk (t1.data.filter keepTitleChar)
  if t2.length < 3 then "New Chat"
  else
    match t2.data with
    | [] => t2
    | ch :: rest => String.mk (ch.toUpper :: rest)

/-- `SessionService.getSessionTitle` (Redis branch): the stored title
when present and truthy, otherwise the deterministic fallback derived
from the id. -/
def getSessionTitle (c : CacheState) (sid : String) : String :=
  match lookupKey sid c.titles with
  | some t => if t = "" then generateTitleFromId sid else t
  | none => generateTitleFromId sid

end SessionService

namespace SessionStorage

/-- `SessionStorageService.getSessionHistory`:
`SELECT * FROM chat_messages WHERE session_id = ? ORDER BY timestamp ASC
LIMIT n` — the oldest `limit` rows of the session in chronological order
(row order in the table models the timestamp order). -/
def getSessionHistory (durable : List DRow) (sid : String) (limit : Nat) : List DRow :=
  (durable.filter (fun r => r.sessionId == sid)).take limit

/-- `SessionStorageService.saveMessage`: a single-row
`INSERT INTO chat_messages`.  This function exists in the repository but
is never invoked by any code under `src/`. -/
def saveMessage (durable : List DRow) (sid : String) (message : String)
    (role : DRole) : List DRow :=
  durable ++ [{ sessionId := sid, message := message, role := role }]

end SessionStorage

namespace SessionService

/-- Result object of `SessionService.restoreSessionFromStorage`
(`{restored, messages}`; the `restoredCount` field is the length of
`messages` and is left out). -/
structure RestoreResult where
  restored : Bool
  messages : List Msg
deriving DecidableEq, Repr

/-- One Redis `lPush` of an already-built message record. -/
def lpush (c : CacheState) (sid : String) (m : Msg) : CacheState :=
  { c with sessions := setKey sid (m :: getSess c sid) c.sessions }

/-- The cache message rebuilt from one durable row during restore: the
row text, `isUser` from `role === 'user'`, a fresh unmodelled id, and an
empty `sources` list. -/
def msgOfRow (r : DRow) : Msg :=
  { text := r.message, isUser := r.role == DRole.user, sources := [] }

/-- `SessionService.restoreSessionFromStorage` (Redis branch): fetch the
MySQL rows, return `restored=false` on an empty result; otherwise reverse
the rows (newest first), rebuild message records with `isUser` from the
row role, `DEL` the session key, `lPush` each rebuilt record in turn,
and store a title generated from `redisMessages[0]` (the newest row).
The returned `messages` field is the array after the second in-place
`reverse()`, i.e. chronological again. -/
def restoreSessionFromStorage (c : CacheState) (durable : List DRow) (sid : String)
    (limit : Nat) : CacheState × RestoreResult :=
  let mysqlHistory := SessionStorage.getSessionHistory durable sid limit
  if mysqlHistory.isEmpty then (c, { restored := false, messages := [] })
  else
    let redisMessages := mysqlHistory.reverse.map msgOfRow
    let c1 : CacheState := { c with sessions := eraseKey sid c.sessions }
    let c2 := redisMessages.foldl (fun acc m => lpush acc sid m) c1
    let c3 :=
      match redisMessages with
      | [] => c2
      | m :: _ => setSessionTitle c2 sid (generateTitleFromMessage m.text)
    (c3, { restored := true, messages := redisMessages.reverse })

/-- One entry of the `getAllSessions` response; the TTL (`expiresIn`) and
`lastActivity` fields are derived from wall-clock state that is not
modelled and no claim depends on. -/
structure SessionSummary where
  sessionId : String
  title : String
  messageCount : Nat
deriving DecidableEq, Repr

/-- `SessionService.getAllSessions` (Redis branch): one summary per
`session:*` key, with `messageCount` from `LLEN` and the title from
`getSessionTitle`. -/
def getAllSessions (c : CacheState) : List SessionSummary :=
  c.sessions.map (fun p =>
    { sessionId := p.1, title := getSessionTitle c p.1, messageCount := p.2.length })

/-- Outcome record of `cleanupEmptySessions`: `{cleaned, errors}`. -/
structure CleanupResult where
  cleaned : Nat
  errors : List String
deriving DecidableEq, Repr

/-- `SessionService.cleanupEmptySessions`: list the active sessions, and
clear each one whose `messageCount` is zero, counting successes.  In the
embedding `clearSession` cannot fail, so the error list stays empty
(failures of the underlying store are outside the model). -/
def cleanupEmptySessions (c : CacheState) : CacheState × CleanupResult :=
  let sessions := getAllSessions c
  sessions.foldl
    (fun acc s =>
      if s.messageCount == 0 then
        (clearSession acc.1 s.sessionId, { acc.2 with cleaned := acc.2.cleaned + 1 })
      else acc)
    (c, { cleaned := 0, errors := [] })

end SessionService

/-- One row of the `transcripts` table (`id`, `session_id`, `title`,
`created_at`, `updated_at`); timestamps are drawn from the database's
logical clock. -/
structure TRow where
  id : String
  sessionId : String
  title : String
  createdAt : Nat
  updatedAt : Nat
deriving DecidableEq, Repr

/-- One row of the transcript `messages` table (`id`, `transcript_id`,
`role`, `content`, `timestamp`, and the `sources` part of the JSON
`metadata` column). -/
structure MRow where
  mid : Nat
  transcriptId : String
  role : TRole
  content : String
  time : Nat
  metaSources : List String
deriving DecidableEq, Repr

/-- The transcript database: the two tables plus the id/clock sources
(`nextUuid` models `crypto.randomUUID`, `nextMid` the message
auto-increment, `clock` the `CURRENT_TIMESTAMP` defaults). -/
structure TranscriptDB where
  transcripts : List TRow
  messages : List MRow
  nextUuid : Nat
  nextMid : Nat
  clock : Nat
deriving DecidableEq, Repr

/-- The rendered identifier issued for the `n`-th `randomUUID()` call. -/
def uuidName (n : Nat) : String :=
  "uuid-" ++ toString n

/-- A turn handed to `TranscriptService.saveTranscript`
(`{role, content, timestamp, sources}`; the timestamp defaults to the
insert clock). -/
structure TMsg where
  role : TRole
  content : String
  sources : List String
deriving DecidableEq, Repr

namespace TranscriptService

/-- Insert `t` into a list sorted by `created_at` descending. -/
def insertByCreatedDesc (t : TRow) : List TRow → List TRow
  | [] => [t]
  | h :: rest =>
    if h.createdAt ≤ t.createdAt then t :: h :: rest else h :: insertByCreatedDesc t rest

/-- `ORDER BY created_at DESC` on `transcripts` rows. -/
def sortByCreatedDesc (l : List TRow) : List TRow :=
  l.foldr insertByCreatedDesc []

/-- Insert `m` into a list sorted by `timestamp` ascending. -/
def insertByTimeAsc (m : MRow) : List MRow → List MRow
  | [] => [m]
  | h :: rest =>
    if m.time ≤ h.time then m :: h :: rest else h :: insertByTimeAsc m rest

/-- `ORDER BY timestamp ASC` on `messages` rows. -/
def sortByTimeAsc (l : List MRow) : List MRow :=
  l.foldr insertByTimeAsc []

/-- The rows produced by the sequential `INSERT INTO messages` loop of
`saveTranscript`, starting from auto-increment value `mid` and clock
value `clock`. -/
def mkRows (tid : String) (mid clock : Nat) : List TMsg → List MRow
  | [] => []
  | m :: rest =>
    { mid := mid, transcriptId := tid, role := m.role, content := m.content,
      time := clock, metaSources := m.sources } :: mkRows tid (mid + 1) (clock + 1) rest

/-- The message-insertion loop of `saveTranscript`: appends one row per
turn, bumping the auto-increment id and the clock per insert. -/
def insertMessages (db : TranscriptDB) (tid : String) (msgs : List TMsg) : TranscriptDB :=
  { db with
    messages := db.messages ++ mkRows tid db.nextMid db.clock msgs
    nextMid := db.nextMid + msgs.length
    clock := db.clock + msgs.length }

/-- The JS truthiness test `if (title)` on an optional string: `null`,
`undefined` and the empty string are falsy. -/
def titleTruthy : Option String → Bool
  | some t => t != ""
  | none => false

/-- The fallback title `Chat Session ${date}` used on first creation; the
date is rendered from the logical clock. -/
def defaultTitle (db : TranscriptDB) : String :=
  "Chat Session " ++ toString db.clock

/-- `TranscriptService.saveTranscript`: look up the most recent transcript
row for the session (`ORDER BY created_at DESC LIMIT 1`); when one exists,
reuse its id, update its title when a truthy title is supplied, delete its
message rows and reinsert the new set; otherwise insert a fresh transcript
row (with the supplied or default title) and the message set.  Returns the
transcript id. -/
def saveTranscript (db : TranscriptDB) (sid : String) (msgs : List TMsg)
    (title : Option String) : String × TranscriptDB :=
  let existing := (sortByCreatedDesc (db.transcripts.filter (fun t => t.sessionId == sid))).head?
  match existing with
  | some ex =>
    let tid := ex.id
    let db1 :=
      if titleTruthy title then
        { db with
          transcripts := db.transcripts.map (fun t =>
            if t.id == tid then
              { t with title := title.getD "", updatedAt := db.clock }
            else t)
          clock := db.clock + 1 }
      else db
    let db2 := { db1 with messages := db1.messages.filter (fun m => m.transcriptId != tid) }
    (tid, insertMessages db2 tid msgs)
  | none =>
    let tid := uuidName db.nextUuid
    let finalTitle := if titleTruthy title then title.getD "" else defaultTitle db
    let newRow : TRow :=
      { id := tid, sessionId := sid, title := finalTitle,
        createdAt := db.clock, updatedAt := db.clock }
    let db1 :=
      { db with
        transcripts := newRow :: db.transcripts
        nextUuid := db.nextUuid + 1
        clock := db.clock + 1 }
    (tid, insertMessages db1 tid msgs)

/-- The object returned by `TranscriptService.getTranscript`. -/
structure TranscriptView where
  id : String
  sessionId : String
  title : String
  messages : List MRow
deriving DecidableEq, Repr

/-- `TranscriptService.getTranscript`: the transcript row by id (or
`null`), together with its message rows ordered by `timestamp ASC`. -/
def getTranscript (db : TranscriptDB) (tid : String) : Option TranscriptView :=
  match db.transcripts.find? (fun t => t.id == tid) with
  | none => none
  | some t =>
    some
      { id := t.id, sessionId := t.sessionId, title := t.title,
        messages := sortByTimeAsc (db.messages.filter (fun m => m.transcriptId == tid)) }

/-- Does the string `hay` contain `needle` as a substring
(`hay LIKE '%needle%'` for a pattern free of SQL wildcards; the default
collation's case folding is not modelled)? -/
def strContains (hay needle : String) : Bool :=
  decide (needle.data <:+: hay.data)

/-- The row set of `transcripts t JOIN messages m ON t.id = m.transcript_id`. -/
def joinRows (db : TranscriptDB) : List (TRow × MRow) :=
  db.transcripts.flatMap (fun t =>
    (db.messages.filter (fun m => m.transcriptId == t.id)).map (fun m => (t, m)))

/-- The distinct transcripts selected by the search query's
`WHERE t.title LIKE ? OR m.content LIKE ?` over the join, before the
`ORDER BY` / `LIMIT` clauses. -/
def searchMatchesDistinct (db : TranscriptDB) (q : String) : List TRow :=
  (((joinRows db).filter (fun p => strContains p.1.title q || strContains p.2.content q)).map
    (fun p => p.1)).dedup

/-- `TranscriptService.searchTranscripts` at the default limit (20):
`SELECT DISTINCT t.* FROM transcripts t JOIN messages m ON
t.id = m.transcript_id WHERE t.title LIKE '%q%' OR m.content LIKE '%q%'
ORDER BY t.created_at DESC LIMIT 20`. -/
def searchTranscripts (db : TranscriptDB) (q : String) : List TRow :=
  (sortByCreatedDesc (searchMatchesDistinct db q)).take 20

end TranscriptService

/-- The whole backend state visible to the claims: the Redis cache tier,
the durable `chat_messages` table, the transcript database, the
`ChatService` in-memory LLM context map, and the fresh-session-id
supply (`uuidv4` modelled as a counter). -/
structure SysState where
  cache : CacheState
  durable : List DRow
  tdb : TranscriptDB
  chat : List (String × List (TRole × String))
  nextSid : Nat
deriving DecidableEq, Repr

/-- The backend state of a freshly started server: both stores empty. -/
def initState : SysState :=
  { cache := { sessions := [], titles := [] }
    durable := []
    tdb := { transcripts := [], messages := [], nextUuid := 0, nextMid := 0, clock := 0 }
    chat := []
    nextSid := 0 }

namespace ChatService

/-- `ChatService.addToHistory`: push `{role, content}` onto the session's
in-memory LLM context, keeping only the most recent 10 entries
(`slice(-10)`). -/
def addToHistory (chat : List (String × List (TRole × String))) (sid : String)
    (role : TRole) (content : String) : List (String × List (TRole × String)) :=
  let hist := (lookupKey sid chat).getD []
  let hist1 := hist ++ [(role, content)]
  let hist2 := if hist1.length > 10 then hist1.drop (hist1.length - 10) else hist1
  setKey sid hist2 chat

/-- The state effect of `ChatService.processMessage`: the vector search
and LLM call are external collaborators (the answer text is an input
here); the method records the user and assistant turns in the in-memory
context map and touches no store of this subsystem. -/
def processMessage (chat : List (String × List (TRole × String))) (sid : String)
    (message response : String) : List (String × List (TRole × String)) :=
  addToHistory (addToHistory chat sid TRole.user message) sid TRole.assistant response

/-- `ChatService.saveSessionTranscript` as written in the source: the
snapshot variable `conversationHistory` is initialised to the empty list
and never populated before the length check, so the guard always takes
the `return null` branch; the mapping and the `saveTranscript` call below
it are dead code. -/
def saveSessionTranscript (db : TranscriptDB) (sessionId : String)
    (title : Option String) : Option String × TranscriptDB :=
  let conversationHistory : List Msg := []
  if conversationHistory.length == 0 then (none, db)
  else
    let messages := conversationHistory.map (fun m =>
      { role := if m.isUser then TRole.user else TRole.assistant,
        content := m.text, sources := m.sources : TMsg })
    let r := TranscriptService.saveTranscript db sessionId messages title
    (some r.1, r.2)

end ChatService

/-- Response of the `POST /api/chat` route: a 400 on a missing message,
or the (possibly freshly assigned) session id. -/
inductive ChatOutcome where
  | badRequest
  | ok (sessionId : String)
deriving DecidableEq, Repr

/-- The `POST /api/chat` handler of `chatbot.js`: validate the message,
assign a session id when none is supplied, record the user turn in the
cache, store a derived title when the cached history was empty, run
`processMessage` (the external answer `botResponse` with its retrieval
`botSources` is an input), record the assistant turn in the cache, and
attempt the transcript auto-save (a no-op, see
`ChatService.saveSessionTranscript`).  No write to the durable
`chat_messages` table occurs anywhere in the handler. -/
def handleChat (st : SysState) (sessionId : Option String) (message : String)
    (botResponse : String) (botSources : List String) : SysState × ChatOutcome :=
  if message == "" then (st, ChatOutcome.badRequest)
  else
    let sid := sessionId.getD ("sid-" ++ toString st.nextSid)
    let nextSid' := if sessionId.isSome then st.nextSid else st.nextSid + 1
    let isFirstMessage :=
      (SessionService.getSessionHistory st.cache sid 1).length == 0
    let c1 := (SessionService.addMessage st.cache sid message true []).1
    let c2 :=
      if isFirstMessage then
        SessionService.setSessionTitle c1 sid
          (SessionService.generateTitleFromMessage message)
      else c1
    let chat' := ChatService.processMessage st.chat sid message botResponse
    let c3 := (SessionService.addMessage c2 sid botResponse false botSources).1
    let autoSave := ChatService.saveSessionTranscript st.tdb sid
      (some (SessionService.getSessionTitle c3 sid))
    ({ st with cache := c3, chat := chat', tdb := autoSave.2, nextSid := nextSid' },
      ChatOutcome.ok sid)

/-- The `DELETE /api/session/:sessionId` route: `clearSession` on the
cache tier, leaving every other component untouched. -/
def clearSessionSys (st : SysState) (sid : String) : SysState :=
  { st with cache := SessionService.clearSession st.cache sid }

/-! ### Auxiliary definitions used by the verification -/

/-- A whole sequence of `addMessage` calls against one session
(each element is the `(text, isUser, sources)` triple of one turn). -/
def appendAll (c : CacheState) (sid : String)
    (msgs : List (String × Bool × List String)) : CacheState :=
  msgs.foldl (fun acc a => (SessionService.addMessage acc sid a.1 a.2.1 a.2.2).1) c

/-- The cached turn record built for one `(text, isUser, sources)` triple. -/
def mkMsg (a : String × Bool × List String) : Msg :=
  { text := a.1, isUser := a.2.1, sources := a.2.2 }

/-- The `(text, role)` projection of a turn list, used to compare cached
turns with durable rows (ids/timestamps/metadata aside). -/
def turnProj (l : List Msg) : List (String × Bool) :=
  l.map (fun m => (m.text, m.isUser))

/-- The chronological `(text, role)` sequence of a session in the durable
`chat_messages` table. -/
def durableTurns (durable : List DRow) (sid : String) : List (String × Bool) :=
  (durable.filter (fun r => r.sessionId == sid)).map
    (fun r => (r.message, r.role == DRole.user))

/-- Fixture: one `POST /api/chat` call on a fresh server. -/
def exChat0 : SysState := (handleChat initState (some "s1") "Hello" "Hi there!" []).1

/-- Fixture: a first chat turn for session `S` (sets the title). -/
def exChat1 : SysState := (handleChat initState (some "S") "Hello there" "resp one" []).1

/-- Fixture: `exChat1` after `clearSession` and one more chat turn. -/
def exChat2 : SysState :=
  (handleChat (clearSessionSys exChat1 "S") (some "S") "Goodbye friend" "resp two" []).1

/-- Fixture: a durable history of two turns for session `s`. -/
def exDurable : List DRow :=
  [{ sessionId := "s", message := "Hi", role := DRole.user },
   { sessionId := "s", message := "Hello!", role := DRole.bot }]

/-- Fixture: the cache after restoring `exDurable` into an empty cache. -/
def exRestoreCache : CacheState :=
  (SessionService.restoreSessionFromStorage { sessions := [], titles := [] }
    exDurable "s" 50).1

/-- Fixture: a cached session `S` with one turn and a stored title. -/
def exTitled : SysState :=
  { initState with
    cache :=
      { sessions := [("S", [{ text := "x", isUser := true, sources := [] }])]
        titles := [("S", "My title")] } }

/-- Fixture: `exTitled` with one durable row for `S` as well. -/
def exTitledDur : SysState :=
  { exTitled with durable := [{ sessionId := "S", message := "Hi", role := DRole.user }] }

/-- Fixture: an empty transcript database. -/
def exTdbEmpty : TranscriptDB :=
  { transcripts := [], messages := [], nextUuid := 0, nextMid := 0, clock := 0 }

/-- Fixture: a transcript whose title matches searches but which has no
message rows. -/
def exTdbTitleOnly : TranscriptDB :=
  { transcripts := [{ id := "t1", sessionId := "s", title := "hello", createdAt := 0, updatedAt := 0 }]
    messages := []
    nextUuid := 1, nextMid := 0, clock := 1 }

/-- Fixture: two transcripts, one of which has a message row containing
`hello world`. -/
def exTdbSearch : TranscriptDB :=
  { transcripts :=
      [{ id := "t1", sessionId := "s", title := "alpha", createdAt := 0, updatedAt := 0 },
       { id := "t2", sessionId := "s2", title := "beta", createdAt := 1, updatedAt := 1 }]
    messages :=
      [{ mid := 0, transcriptId := "t1", role := TRole.user, content := "hello world",
         time := 2, metaSources := [] }]
    nextUuid := 2, nextMid := 1, clock := 3 }

/-- Fixture: a cache with one active session `A` and one empty session `B`. -/
def exCleanupCache : CacheState :=
  { sessions := [("A", [{ text := "x", isUser := true, sources := [] }]), ("B", [])]
    titles := [] }

/-! ### Association-list lemmas -/

@[simp]
theorem lookupKey_nil (k : String) : lookupKey k ([] : List (String × α)) = none := rfl

@[simp]
theorem lookupKey_cons (k : String) (p : String × α) (t : List (String × α)) :
    lookupKey k (p :: t) = if p.1 = k then some p.2 else lookupKey k t := rfl

@[simp]
theorem eraseKey_nil (k : String) : eraseKey k ([] : List (String × α)) = [] := rfl

@[simp]
theorem eraseKey_cons (k : String) (p : String × α) (t : List (String × α)) :
    eraseKey k (p :: t) = if p.1 = k then eraseKey k t else p :: eraseKey k t := rfl

@[simp]
theorem lookupKey_eraseKey_self (k : String) (l : List (String × α)) :
    lookupKey k (eraseKey k l) = none := by
  induction l with
  | nil => rfl
  | cons p t ih =>
    by_cases h : p.1 = k <;> simp [h, ih]

@[simp]
theorem eraseKey_eraseKey (k : String) (l : List (String × α)) :
    eraseKey k (eraseKey k l) = eraseKey k l := by
  induction l with
  | nil => rfl
  | cons p t ih =>
    by_cases h : p.1 = k <;> simp [h, ih]

@[simp]
theorem lookupKey_setKey_self (k : String) (v : α) (l : List (String × α)) :
    lookupKey k (setKey k v l) = some v := by
  simp [setKey]

@[simp]
theorem eraseKey_setKey (k : String) (v : α) (l : List (String × α)) :
    eraseKey k (setKey k v l) = eraseKey k l := by
  simp [setKey]

theorem setKey_setKey (k : String) (v w : α) (l : List (String × α)) :
    setKey k v (setKey k w l) = setKey k v l := by
  simp [setKey]

theorem lookupKey_eraseKey_ne (k k' : String) (l : List (String × α))
    (h : k' ≠ k) : lookupKey k' (eraseKey k l) = lookupKey k' l := by
  induction l with
  | nil => rfl
  | cons p t ih =>
    have hk : ¬ (k = k') := fun hh => h hh.symm
    by_cases hp : p.1 = k
    · have hne : p.1 ≠ k' := by rw [hp]; exact fun hh => h hh.symm
      simp [hp, hne, ih, hk]
    · by_cases hp' : p.1 = k' <;> simp [hp, hp', ih, hk, h]

theorem lookupKey_setKey_ne (k k' : String) (v : α) (l : List (String × α))
    (h : k' ≠ k) : lookupKey k' (setKey k v l) = lookupKey k' l := by
  have hk : k ≠ k' := fun hh => h hh.symm
  simp [setKey, hk, lookupKey_eraseKey_ne k k' l h]

theorem eraseKey_of_not_mem_keys (k : String) (l : List (String × α))
    (h : k ∉ l.map Prod.fst) : eraseKey k l = l := by
  induction l with
  | nil => rfl
  | cons p t ih =>
    simp only [List.map_cons, List.mem_cons] at h
    push_neg at h
    simp [Ne.symm h.1, ih h.2]

/-! ### `lrange` lemmas -/

/-- For a positive requested count, `lRange key 0 (limit-1)` is a plain
`take` from the head of the list. -/
theorem lrange_zero_limit (l : List α) (limit : Nat) (h : 1 ≤ limit) :
    lrange l 0 ((limit : Int) - 1) = l.take limit := by
  have hnn : ¬ ((limit : Int) - 1 < 0) := by omega
  have hgt : ¬ ((0 : Int) > (limit : Int) - 1) := by omega
  simp only [lrange, hnn, if_false, hgt]
  have h0 : ¬ limit = 0 := by omega
  have h1 : limit - 1 + 1 = limit := by omega
  simp [h0, h1]

end Backend

namespace Backend

/-! ### Cache-tier lemmas -/

theorem reverse_take_reverse_eq_drop (l : List α) (n : Nat) :
    (l.reverse.take n).reverse = l.drop (l.length - n) := by
  rw [← List.rtake_eq_reverse_take_reverse]
  simp [List.rtake]

/-- After a run of `addMessage` calls, the stored Redis list is the
appended sequence reversed (newest at the head), on top of whatever was
cached before. -/
theorem getSess_appendAll (c : CacheState) (sid : String)
    (msgs : List (String × Bool × List String)) :
    SessionService.getSess (appendAll c sid msgs) sid
      = (msgs.map mkMsg).reverse ++ SessionService.getSess c sid := by
  induction msgs generalizing c with
  | nil => simp [appendAll]
  | cons a as ih =>
    have hstep :
        SessionService.getSess ((SessionService.addMessage c sid a.1 a.2.1 a.2.2).1) sid
          = mkMsg a :: SessionService.getSess c sid := by
      simp [SessionService.addMessage, SessionService.getSess, mkMsg]
    have hfold :
        appendAll c sid (a :: as)
          = appendAll ((SessionService.addMessage c sid a.1 a.2.1 a.2.2).1) sid as := by
      simp [appendAll]
    rw [hfold, ih, hstep]
    simp

/-! ### Claim theorems (first group) -/

/-- C6: `ChatService.saveSessionTranscript` snapshots a conversation
history that is initialised to the empty list and never populated, so it
returns `null` without touching the transcript store for every session id
and title; consequently the per-turn auto-save inside the chat handler
never persists a transcript either. -/
theorem saveSessionTranscript_never_persists :
    (∀ (db : TranscriptDB) (sid : String) (title : Option String),
        ChatService.saveSessionTranscript db sid title = (none, db))
    ∧ ∀ (st : SysState) (sidOpt : Option String) (msg resp : String)
        (srcs : List String),
        ((handleChat st sidOpt msg resp srcs).1).tdb = st.tdb := by
  refine ⟨fun db sid title => rfl, fun st sidOpt msg resp srcs => ?_⟩
  by_cases h : (msg == "") = true
  · simp [handleChat, h]
  · simp [handleChat, h, ChatService.saveSessionTranscript]

/-- C1: evaluating the `POST /api/chat` handler at the failing input
(session `s1`, message `Hello`, fresh server).  The handler records both
turns in the cache tier but performs no durable write at all, so the
cached turn sequence is non-empty while the durable sequence stays empty
and the cache-is-a-suffix-of-durable invariant fails immediately. -/
theorem chat_route_writes_cache_only :
    exChat0.durable = initState.durable
    ∧ turnProj (SessionService.getSessionHistory exChat0.cache "s1" 50)
        = [("Hello", true), ("Hi there!", false)]
    ∧ ¬ (turnProj (SessionService.getSessionHistory exChat0.cache "s1" 50)
          <:+ durableTurns exChat0.durable "s1") := by
  refine ⟨rfl, by decide, ?_⟩
  intro hsuff
  have hnil : turnProj (SessionService.getSessionHistory exChat0.cache "s1" 50) = [] := by
    have hd : durableTurns exChat0.durable "s1" = [] := by decide
    rw [hd] at hsuff
    exact List.suffix_nil.mp hsuff
  exact absurd hnil (by decide)

/-- C2: evaluating restore-then-read at the failing input (durable history
`Hi` (user) then `Hello!` (bot) for session `s`, empty cache).  The
replay leaves the Redis list oldest-at-head, so `getSessionHistory`
returns the two turns in reverse chronological order, not `T1..Tn`. -/
theorem restore_then_getHistory_reverses :
    (SessionService.restoreSessionFromStorage { sessions := [], titles := [] }
        exDurable "s" 50).2.restored = true
    ∧ turnProj (SessionService.getSessionHistory exRestoreCache "s" 2)
        = (durableTurns exDurable "s").reverse
    ∧ turnProj (SessionService.getSessionHistory exRestoreCache "s" 2)
        ≠ durableTurns exDurable "s" := by
  refine ⟨by decide, by decide, by decide⟩

end Backend

namespace Backend

/-- C3 (amended): for any sequence of turns appended to a previously
uncached session and any requested `limit ≥ 1`, `getSessionHistory`
returns exactly the most recent `min(N, limit)` turns in chronological
oldest-first order (stated as the length-`limit` suffix of the appended
sequence). -/
theorem append_then_read_returns_recent_suffix (c : CacheState) (sid : String)
    (msgs : List (String × Bool × List String)) (limit : Nat)
    (habs : lookupKey sid c.sessions = none) (hlim : 1 ≤ limit) :
    SessionService.getSessionHistory (appendAll c sid msgs) sid limit
      = (msgs.map mkMsg).drop (msgs.length - limit) := by
  unfold SessionService.getSessionHistory
  rw [lrange_zero_limit _ _ hlim, getSess_appendAll]
  have hc : SessionService.getSess c sid = [] := by
    simp [SessionService.getSess, habs]
  rw [hc, List.append_nil, reverse_take_reverse_eq_drop]
  simp

/-- C3 witness: three turns appended to `S`, read back with `limit = 2`,
give the two most recent turns in chronological order. -/
theorem append_then_read_returns_recent_suffix_witness :
    SessionService.getSessionHistory
        (appendAll { sessions := [], titles := [] } "S"
          [("a", true, []), ("b", false, []), ("c", true, [])]) "S" 2
      = [{ text := "b", isUser := false, sources := [] },
         { text := "c", isUser := true, sources := [] }] :=
  (append_then_read_returns_recent_suffix { sessions := [], titles := [] } "S"
    [("a", true, []), ("b", false, []), ("c", true, [])] 2 (by decide)
    (by decide)).trans (by decide)

/-- C3 counterexample: with one recorded turn, `getSessionHistory` at
`limit = 0` returns that turn rather than at most zero entries, because
the code's end index `limit - 1 = -1` is Redis's last-element sentinel. -/
theorem read_limit_zero_returns_full_history :
    (SessionService.getSessionHistory
        (appendAll { sessions := [], titles := [] } "S" [("Hello there", true, [])])
        "S" 0).length = 1
    ∧ ¬ ((SessionService.getSessionHistory
        (appendAll { sessions := [], titles := [] } "S" [("Hello there", true, [])])
        "S" 0).length ≤ 0) :=
  ⟨by decide, by decide⟩

end Backend

namespace Backend

/-- C4 (amended): the chat handler stores a title derived by
`generateTitleFromMessage` exactly when the cached history it observes is
empty; while the session's cached turn list is non-empty, a further
handler call leaves the stored titles untouched (the title can still be
re-derived by a call that finds the cached list empty, e.g. after
`clearSession` or TTL expiry, since clearing does not remove the title
key). -/
theorem title_set_on_first_turn_only_while_cached (st : SysState) (sid : String)
    (message botResponse : String) (botSources : List String) :
    (SessionService.getSessionHistory st.cache sid 1 ≠ [] →
        ((handleChat st (some sid) message botResponse botSources).1).cache.titles
          = st.cache.titles)
    ∧ (SessionService.getSessionHistory st.cache sid 1 = [] → message ≠ "" →
        lookupKey sid
            ((handleChat st (some sid) message botResponse botSources).1).cache.titles
          = some (SessionService.generateTitleFromMessage message)) := by
  constructor
  · intro hne
    by_cases hmsg : (message == "") = true
    · simp [handleChat, hmsg]
    · have hlen : ((SessionService.getSessionHistory st.cache sid 1).length == 0) = false := by
        cases h : SessionService.getSessionHistory st.cache sid 1 with
        | nil => exact absurd h hne
        | cons a t => simp
      simp [handleChat, hmsg, hlen, SessionService.addMessage]
  · intro hemp hmsg
    have hmsgb : (message == "") = false := by
      simp [hmsg]
    have hlen : ((SessionService.getSessionHistory st.cache sid 1).length == 0) = true := by
      simp [hemp]
    simp [handleChat, hmsgb, hlen, SessionService.addMessage,
      SessionService.setSessionTitle]

/-- C4 witness: a second turn on an actively cached session leaves the
stored titles unchanged, and a first turn stores the derived title. -/
theorem title_set_on_first_turn_only_while_cached_witness :
    ((handleChat exChat1 (some "S") "More text" "resp" []).1).cache.titles
        = exChat1.cache.titles
    ∧ lookupKey "S"
          ((handleChat initState (some "S") "Hello there" "resp one" []).1).cache.titles
        = some (SessionService.generateTitleFromMessage "Hello there") :=
  ⟨(title_set_on_first_turn_only_while_cached exChat1 "S" "More text" "resp" []).1
      (by decide),
   (title_set_on_first_turn_only_while_cached initState "S" "Hello there" "resp one"
      []).2 (by decide) (by decide)⟩

/-- C4 counterexample: the title stored on the first turn of `S`
(`Hello there`) is overwritten by a later chat turn after an intervening
`clearSession`, with no `restoreFromDurable` or `setSessionTitle` call in
between — so "subsequent recordTurn calls never overwrite the stored
title" fails as stated. -/
theorem title_overwritten_by_later_turn :
    lookupKey "S" exChat1.cache.titles = some "Hello there"
    ∧ lookupKey "S" exChat2.cache.titles = some "Goodbye friend"
    ∧ ("Goodbye friend" : String) ≠ "Hello there" :=
  ⟨by decide, by decide, by decide⟩

end Backend

namespace Backend

/-- C8 (amended): `clearSession` deletes the session's cached turn list
(but not its stored title, which survives under the separate
`session_title:{id}` key), is idempotent, and leaves the durable store's
history unchanged, so a later restore for the same session still
succeeds whenever the durable history is non-empty. -/
theorem clearSession_cache_eviction (st : SysState) (sid : String) (limit : Nat)
    (hdur : SessionStorage.getSessionHistory st.durable sid limit ≠ []) :
    lookupKey sid ((clearSessionSys st sid).cache).sessions = none
    ∧ ((clearSessionSys st sid).cache).titles = st.cache.titles
    ∧ clearSessionSys (clearSessionSys st sid) sid = clearSessionSys st sid
    ∧ (clearSessionSys st sid).durable = st.durable
    ∧ (SessionService.restoreSessionFromStorage (clearSessionSys st sid).cache
        (clearSessionSys st sid).durable sid limit).2.restored = true := by
  have hemp : (SessionStorage.getSessionHistory st.durable sid limit).isEmpty = false := by
    cases h : SessionStorage.getSessionHistory st.durable sid limit with
    | nil => exact absurd h hdur
    | cons a t => rfl
  refine ⟨?_, rfl, ?_, rfl, ?_⟩
  · simp [clearSessionSys, SessionService.clearSession]
  · simp [clearSessionSys, SessionService.clearSession]
  · simp [clearSessionSys, SessionService.restoreSessionFromStorage, hemp]

/-- C8 witness: with a cached turn, a stored title and one durable row
for `S`, clearing evicts the turn list and restore still reports
`restored = true`. -/
theorem clearSession_cache_eviction_witness :
    lookupKey "S" ((clearSessionSys exTitledDur "S").cache).sessions = none
    ∧ (SessionService.restoreSessionFromStorage (clearSessionSys exTitledDur "S").cache
        (clearSessionSys exTitledDur "S").durable "S" 50).2.restored = true :=
  ⟨(clearSession_cache_eviction exTitledDur "S" 50 (by decide)).1,
   (clearSession_cache_eviction exTitledDur "S" 50 (by decide)).2.2.2.2⟩

/-- C8 counterexample: after `clearSession`, the stored title of `S` is
still present in the cache tier, so "deletes all cached state for the
session — its turn list and its stored title" fails as stated. -/
theorem clearSession_leaves_title_behind :
    lookupKey "S" ((clearSessionSys exTitled "S").cache).titles = some "My title"
    ∧ lookupKey "S" ((clearSessionSys exTitled "S").cache).sessions = none :=
  ⟨by decide, by decide⟩

end Backend

namespace Backend

/-- A non-empty run of `lPush` calls against one session key amounts to a
single whole-list write of the pushed messages in reverse push order on
top of the previously cached list. -/
theorem foldl_lpush_eq (c : CacheState) (sid : String) (m : Msg) (ms : List Msg) :
    (m :: ms).foldl (fun acc m' => SessionService.lpush acc sid m') c
      = { c with
          sessions := setKey sid ((m :: ms).reverse ++ SessionService.getSess c sid)
            c.sessions } := by
  induction ms generalizing c m with
  | nil => simp [SessionService.lpush]
  | cons b bs ih =>
    have h1 :
        (m :: b :: bs).foldl (fun acc m' => SessionService.lpush acc sid m') c
          = (b :: bs).foldl (fun acc m' => SessionService.lpush acc sid m')
              (SessionService.lpush c sid m) := rfl
    rw [h1, ih]
    simp [SessionService.lpush, SessionService.getSess, setKey_setKey]

/-- The cache produced by a successful restore, in closed form: the
session list holds the fetched rows oldest-at-head, and the title key is
rewritten from the newest row. -/
theorem restore_state_eq (c : CacheState) (durable : List DRow) (sid : String)
    (limit : Nat) (m : Msg) (ms : List Msg)
    (hR : (SessionStorage.getSessionHistory durable sid limit).reverse.map
        SessionService.msgOfRow = m :: ms) :
    (SessionService.restoreSessionFromStorage c durable sid limit).1
      = { sessions := setKey sid ((m :: ms).reverse) (eraseKey sid c.sessions)
          titles := setKey sid
            (SessionService.generateTitleFromMessage m.text) c.titles } := by
  have hrows : SessionStorage.getSessionHistory durable sid limit ≠ [] := by
    intro hh
    rw [hh] at hR
    exact absurd hR (by simp)
  have hemp : (SessionStorage.getSessionHistory durable sid limit).isEmpty = false := by
    cases h : SessionStorage.getSessionHistory durable sid limit with
    | nil => exact absurd h hrows
    | cons a t => rfl
  have hsess1 :
      SessionService.getSess
        { c with sessions := eraseKey sid c.sessions : CacheState } sid = [] := by
    simp [SessionService.getSess]
  simp only [SessionService.restoreSessionFromStorage, hemp, Bool.false_eq_true,
    if_false, hR]
  rw [foldl_lpush_eq]
  simp [SessionService.setSessionTitle, hsess1]

/-- C7: with no interleaved writes, running `restoreSessionFromStorage`
twice in succession for a session with non-empty durable history leaves
exactly the cache content that the first run produced (the second run is
a no-op replay of the same rows). -/
theorem restore_idempotent_on_cache (c : CacheState) (durable : List DRow)
    (sid : String) (limit : Nat)
    (hdur : SessionStorage.getSessionHistory durable sid limit ≠ []) :
    (SessionService.restoreSessionFromStorage
        (SessionService.restoreSessionFromStorage c durable sid limit).1
        durable sid limit).1
      = (SessionService.restoreSessionFromStorage c durable sid limit).1 := by
  have hne : (SessionStorage.getSessionHistory durable sid limit).reverse.map
      SessionService.msgOfRow ≠ [] := by
    simp [hdur]
  obtain ⟨m, ms, hR⟩ := List.exists_cons_of_ne_nil hne
  rw [restore_state_eq c durable sid limit m ms hR,
    restore_state_eq _ durable sid limit m ms hR]
  simp [setKey_setKey]

/-- C7 witness: restoring the two-row durable history of `s` twice into
an empty cache gives the same cache as restoring it once. -/
theorem restore_idempotent_on_cache_witness :
    (SessionService.restoreSessionFromStorage
        (SessionService.restoreSessionFromStorage { sessions := [], titles := [] }
          exDurable "s" 50).1 exDurable "s" 50).1
      = (SessionService.restoreSessionFromStorage { sessions := [], titles := [] }
          exDurable "s" 50).1 :=
  restore_idempotent_on_cache { sessions := [], titles := [] } exDurable "s" 50
    (by decide)

end Backend

namespace Backend

theorem eraseKey_append (k : String) (l₁ l₂ : List (String × α)) :
    eraseKey k (l₁ ++ l₂) = eraseKey k l₁ ++ eraseKey k l₂ := by
  induction l₁ with
  | nil => rfl
  | cons p t ih =>
    by_cases h : p.1 = k <;> simp [h, ih]

/-- The session summaries and the cleanup fold, as one closed equation
over `cleanupEmptySessions` (definitional unfolding). -/
theorem cleanupEmptySessions_eq (c : CacheState) :
    SessionService.cleanupEmptySessions c
      = ((c.sessions.map (fun p =>
            ({ sessionId := p.1, title := SessionService.getSessionTitle c p.1,
               messageCount := p.2.length } : SessionService.SessionSummary))).foldl
          (fun acc s =>
            if s.messageCount == 0 then
              (SessionService.clearSession acc.1 s.sessionId,
                { acc.2 with cleaned := acc.2.cleaned + 1 })
            else acc)
          (c, { cleaned := 0, errors := [] })) := rfl

/-- Behaviour of the cleanup fold over any tail of the session summaries:
starting from a cache whose session list splits as `kept ++ rest` (with
globally distinct keys), the fold erases exactly the zero-count entries
of `rest`, counts them, and touches neither the titles nor the error
list.  The summary function `f` is abstract, constrained to report each
entry's own key and list length (as `getAllSessions` does). -/
theorem cleanup_fold_spec (f : String × List Msg → SessionService.SessionSummary)
    (hf1 : ∀ p, (f p).sessionId = p.1)
    (hf2 : ∀ p, (f p).messageCount = p.2.length)
    (rest : List (String × List Msg)) :
    ∀ (kept : List (String × List Msg)) (d : CacheState)
      (r : SessionService.CleanupResult),
      d.sessions = kept ++ rest →
      ((kept ++ rest).map Prod.fst).Nodup →
      ((rest.map f).foldl
          (fun acc s =>
            if s.messageCount == 0 then
              (SessionService.clearSession acc.1 s.sessionId,
                { acc.2 with cleaned := acc.2.cleaned + 1 })
            else acc)
          (d, r)).1
        = { d with
            sessions := kept ++ rest.filter (fun p => p.2.length != 0) }
      ∧ ((rest.map f).foldl
          (fun acc s =>
            if s.messageCount == 0 then
              (SessionService.clearSession acc.1 s.sessionId,
                { acc.2 with cleaned := acc.2.cleaned + 1 })
            else acc)
          (d, r)).2
        = { cleaned := r.cleaned + (rest.filter (fun p => p.2.length == 0)).length
            errors := r.errors } := by
  induction rest with
  | nil =>
    intro kept d r hd hnd
    constructor
    · simp at hd
      simp [← hd]
    · simp
  | cons p t ih =>
    intro kept d r hd hnd
    have hmid : (p.1 :: (kept.map Prod.fst ++ t.map Prod.fst)).Nodup := by
      have h := hnd
      simp only [List.map_append, List.map_cons] at h
      exact List.nodup_middle.mp h
    have hknotin : p.1 ∉ kept.map Prod.fst ++ t.map Prod.fst :=
      (List.nodup_cons.mp hmid).1
    have hkkept : p.1 ∉ kept.map Prod.fst := fun hh =>
      hknotin (List.mem_append_left _ hh)
    have hkt : p.1 ∉ t.map Prod.fst := fun hh =>
      hknotin (List.mem_append_right _ hh)
    have hndrest : ((kept ++ t).map Prod.fst).Nodup := by
      simp only [List.map_append]
      exact (List.nodup_cons.mp hmid).2
    by_cases hz : (p.2.length == 0) = true
    · have happ :
          (if (f p).messageCount == 0 then
            (SessionService.clearSession d (f p).sessionId,
              ({ cleaned := r.cleaned + 1, errors := r.errors } :
                SessionService.CleanupResult))
          else (d, r))
            = (SessionService.clearSession d p.1,
                { cleaned := r.cleaned + 1, errors := r.errors }) := by
        rw [hf2, hf1, hz, if_pos rfl]
      have hstep :
          ((p :: t).map f).foldl
              (fun acc s =>
                if s.messageCount == 0 then
                  (SessionService.clearSession acc.1 s.sessionId,
                    { acc.2 with cleaned := acc.2.cleaned + 1 })
                else acc) (d, r)
            = (t.map f).foldl
                (fun acc s =>
                  if s.messageCount == 0 then
                    (SessionService.clearSession acc.1 s.sessionId,
                      { acc.2 with cleaned := acc.2.cleaned + 1 })
                  else acc)
                (SessionService.clearSession d p.1,
                  { cleaned := r.cleaned + 1, errors := r.errors }) := by
        rw [List.map_cons, List.foldl_cons]
        exact congrArg
          (fun z : CacheState × SessionService.CleanupResult =>
            (t.map f).foldl
              (fun acc s =>
                if s.messageCount == 0 then
                  (SessionService.clearSession acc.1 s.sessionId,
                    { acc.2 with cleaned := acc.2.cleaned + 1 })
                else acc) z) happ
      have hd1 : (SessionService.clearSession d p.1).sessions = kept ++ t := by
        simp [SessionService.clearSession, hd, eraseKey_append,
          eraseKey_of_not_mem_keys p.1 kept hkkept,
          eraseKey_of_not_mem_keys p.1 t hkt]
      obtain ⟨ih1, ih2⟩ := ih kept (SessionService.clearSession d p.1)
        { cleaned := r.cleaned + 1, errors := r.errors } hd1 hndrest
      rw [hstep]
      have hz' : p.2 = [] := by simpa using hz
      refine ⟨ih1.trans ?_, ih2.trans ?_⟩
      · simp [SessionService.clearSession, List.filter_cons, hz']
      · simp [List.filter_cons, hz']
        omega
    · have hzf : ((p.2.length == 0) = false) := by
        exact Bool.not_eq_true _ ▸ (by simpa using hz)
      have happ :
          (if (f p).messageCount == 0 then
            (SessionService.clearSession d (f p).sessionId,
              ({ cleaned := r.cleaned + 1, errors := r.errors } :
                SessionService.CleanupResult))
          else (d, r))
            = (d, r) := by
        rw [hf2, hzf, if_neg]
        simp
      have hstep :
          ((p :: t).map f).foldl
              (fun acc s =>
                if s.messageCount == 0 then
                  (SessionService.clearSession acc.1 s.sessionId,
                    { acc.2 with cleaned := acc.2.cleaned + 1 })
                else acc) (d, r)
            = (t.map f).foldl
                (fun acc s =>
                  if s.messageCount == 0 then
                    (SessionService.clearSession acc.1 s.sessionId,
                      { acc.2 with cleaned := acc.2.cleaned + 1 })
                  else acc) (d, r) := by
        rw [List.map_cons, List.foldl_cons]
        exact congrArg
          (fun z : CacheState × SessionService.CleanupResult =>
            (t.map f).foldl
              (fun acc s =>
                if s.messageCount == 0 then
                  (SessionService.clearSession acc.1 s.sessionId,
                    { acc.2 with cleaned := acc.2.cleaned + 1 })
                else acc) z) happ
      have hd1 : d.sessions = (kept ++ [p]) ++ t := by
        rw [hd]; simp
      have hnd1 : (((kept ++ [p]) ++ t).map Prod.fst).Nodup := by
        have h2 : (kept ++ [p]) ++ t = kept ++ p :: t := by simp
        rw [h2]; exact hnd
      obtain ⟨ih1, ih2⟩ := ih (kept ++ [p]) d r hd1 hnd1
      rw [hstep]
      have hz2 : ¬ p.2 = [] := by simpa using hzf
      refine ⟨ih1.trans ?_, ih2.trans ?_⟩
      · simp [List.filter_cons, hz2]
      · simp [List.filter_cons, hz2]

end Backend

namespace Backend

/-- C10: a cleanup run clears exactly the listed sessions whose turn
count is zero — sessions with one or more turns keep their cache entry —
and reports `cleaned` equal to the number of empty sessions cleared,
with an empty error list (per-session failures of the underlying store
are outside the fault-free model), leaving the title keys untouched. -/
theorem cleanup_clears_exactly_empty_sessions (c : CacheState)
    (hnd : (c.sessions.map Prod.fst).Nodup) :
    (SessionService.cleanupEmptySessions c).2.errors = []
    ∧ (SessionService.cleanupEmptySessions c).2.cleaned
        = (c.sessions.filter (fun p => p.2.length == 0)).length
    ∧ (SessionService.cleanupEmptySessions c).1.sessions
        = c.sessions.filter (fun p => p.2.length != 0)
    ∧ (SessionService.cleanupEmptySessions c).1.titles = c.titles := by
  obtain ⟨h1, h2⟩ := cleanup_fold_spec
    (fun p => { sessionId := p.1, title := SessionService.getSessionTitle c p.1,
                messageCount := p.2.length })
    (fun p => rfl) (fun p => rfl) c.sessions [] c
    { cleaned := 0, errors := [] } (by simp) (by simpa using hnd)
  rw [cleanupEmptySessions_eq, h1, h2]
  refine ⟨rfl, by simp, by simp, rfl⟩

/-- C10 witness: with active session `A` (one turn) and empty session
`B`, cleanup reports one cleaned session, no errors, and keeps exactly
`A`. -/
theorem cleanup_clears_exactly_empty_sessions_witness :
    (SessionService.cleanupEmptySessions exCleanupCache).2.errors = []
    ∧ (SessionService.cleanupEmptySessions exCleanupCache).2.cleaned = 1
    ∧ (SessionService.cleanupEmptySessions exCleanupCache).1.sessions
        = [("A", [{ text := "x", isUser := true, sources := [] }])] := by
  obtain ⟨h1, h2, h3, h4⟩ := cleanup_clears_exactly_empty_sessions exCleanupCache
    (by decide)
  exact ⟨h1, h2.trans (by decide), h3.trans (by decide)⟩

end Backend

namespace Backend
namespace TranscriptService

theorem mem_insertByCreatedDesc (a x : TRow) (l : List TRow) :
    a ∈ insertByCreatedDesc x l ↔ a = x ∨ a ∈ l := by
  induction l with
  | nil => simp [insertByCreatedDesc]
  | cons h t ih =>
    by_cases hc : h.createdAt ≤ x.createdAt
    · simp [insertByCreatedDesc, hc]
    · simp [insertByCreatedDesc, hc, ih]
      tauto

theorem mem_sortByCreatedDesc (a : TRow) (l : List TRow) :
    a ∈ sortByCreatedDesc l ↔ a ∈ l := by
  induction l with
  | nil => simp [sortByCreatedDesc]
  | cons h t ih =>
    have hstep : sortByCreatedDesc (h :: t) = insertByCreatedDesc h (sortByCreatedDesc t) := rfl
    rw [hstep, mem_insertByCreatedDesc, ih]
    simp

theorem length_insertByCreatedDesc (x : TRow) (l : List TRow) :
    (insertByCreatedDesc x l).length = l.length + 1 := by
  induction l with
  | nil => rfl
  | cons h t ih =>
    by_cases hc : h.createdAt ≤ x.createdAt <;> simp [insertByCreatedDesc, hc, ih]

theorem length_sortByCreatedDesc (l : List TRow) :
    (sortByCreatedDesc l).length = l.length := by
  induction l with
  | nil => rfl
  | cons h t ih =>
    have hstep : sortByCreatedDesc (h :: t) = insertByCreatedDesc h (sortByCreatedDesc t) := rfl
    rw [hstep, length_insertByCreatedDesc, ih]
    rfl

end TranscriptService

/-- C9 (amended): provided at most 20 transcripts match, a transcript is
returned by `searchTranscripts(query)` exactly when it is stored, has at
least one message row, and its title or one of its message texts contains
the query as a substring.  Transcripts with zero stored turns are never
returned, even on a title match, because of the inner join; beyond 20
matches the result is truncated to the most recently created ones. -/
theorem searchTranscripts_membership (db : TranscriptDB) (q : String) (t : TRow)
    (hcount : (TranscriptService.searchMatchesDistinct db q).length ≤ 20) :
    t ∈ TranscriptService.searchTranscripts db q
      ↔ t ∈ db.transcripts
        ∧ ∃ m ∈ db.messages, m.transcriptId = t.id
            ∧ (q.data <:+: t.title.data ∨ q.data <:+: m.content.data) := by
  have hlen : (TranscriptService.sortByCreatedDesc
      (TranscriptService.searchMatchesDistinct db q)).length ≤ 20 := by
    rw [TranscriptService.length_sortByCreatedDesc]
    exact hcount
  rw [TranscriptService.searchTranscripts, List.take_of_length_le hlen,
    TranscriptService.mem_sortByCreatedDesc]
  rw [show TranscriptService.searchMatchesDistinct db q
      = (((TranscriptService.joinRows db).filter
            (fun p => TranscriptService.strContains p.1.title q
              || TranscriptService.strContains p.2.content q)).map
          (fun p => p.1)).dedup from rfl]
  rw [List.mem_dedup]
  simp only [List.mem_map, List.mem_filter, TranscriptService.joinRows,
    List.mem_flatMap, Bool.or_eq_true, TranscriptService.strContains,
    decide_eq_true_eq, beq_iff_eq]
  constructor
  · rintro ⟨⟨t', m⟩, ⟨⟨t'', ht'', m', ⟨hm', hmid⟩, heq⟩, hP⟩, hfst⟩
    aesop
  · rintro ⟨ht, m, hm, hmid, hP⟩
    aesop

/-- C9 witness: searching `hello` over a store holding a transcript
titled `alpha` with one message `hello world` returns that transcript. -/
theorem searchTranscripts_membership_witness :
    ({ id := "t1", sessionId := "s", title := "alpha",
       createdAt := 0, updatedAt := 0 } : TRow)
      ∈ TranscriptService.searchTranscripts exTdbSearch "hello" :=
  (searchTranscripts_membership exTdbSearch "hello"
      { id := "t1", sessionId := "s", title := "alpha", createdAt := 0, updatedAt := 0 }
      (by decide)).mpr
    ⟨by decide,
     { mid := 0, transcriptId := "t1", role := TRole.user, content := "hello world",
       time := 2, metaSources := [] },
     by decide, rfl, Or.inr (by decide)⟩

/-- C9 counterexample: a stored transcript whose title contains the query
but which has no message rows is not returned by `searchTranscripts`
(the SQL inner join on `messages` drops it), so "exactly the transcripts
whose title contains the query..." fails as stated. -/
theorem searchTranscripts_misses_turnless_title_match :
    ({ id := "t1", sessionId := "s", title := "hello",
       createdAt := 0, updatedAt := 0 } : TRow) ∈ exTdbTitleOnly.transcripts
    ∧ TranscriptService.strContains "hello" "hell" = true
    ∧ ({ id := "t1", sessionId := "s", title := "hello",
         createdAt := 0, updatedAt := 0 } : TRow)
        ∉ TranscriptService.searchTranscripts exTdbTitleOnly "hell" :=
  ⟨by decide, by decide, by decide⟩

end Backend

namespace Backend
namespace TranscriptService

theorem mkRows_proj (tid : String) (mid clock : Nat) (msgs : List TMsg) :
    (mkRows tid mid clock msgs).map (fun m => (m.role, m.content))
      = msgs.map (fun m => (m.role, m.content)) := by
  induction msgs generalizing mid clock with
  | nil => rfl
  | cons a as ih => simp [mkRows, ih]

theorem mkRows_transcriptId (tid : String) (mid clock : Nat) (msgs : List TMsg) :
    ∀ r ∈ mkRows tid mid clock msgs, r.transcriptId = tid := by
  induction msgs generalizing mid clock with
  | nil => intro r hr; simp [mkRows] at hr
  | cons a as ih =>
    intro r hr
    simp only [mkRows, List.mem_cons] at hr
    rcases hr with h | h
    · rw [h]
    · exact ih (mid + 1) (clock + 1) r h

theorem mkRows_time_ge (tid : String) (mid clock : Nat) (msgs : List TMsg) :
    ∀ r ∈ mkRows tid mid clock msgs, clock ≤ r.time := by
  induction msgs generalizing mid clock with
  | nil => intro r hr; simp [mkRows] at hr
  | cons a as ih =>
    intro r hr
    simp only [mkRows, List.mem_cons] at hr
    rcases hr with h | h
    · rw [h]
    · exact Nat.le_of_succ_le (ih (mid + 1) (clock + 1) r h)

theorem mkRows_time_sorted (tid : String) (mid clock : Nat) (msgs : List TMsg) :
    (mkRows tid mid clock msgs).Pairwise (fun a b => a.time ≤ b.time) := by
  induction msgs generalizing mid clock with
  | nil => exact List.Pairwise.nil
  | cons a as ih =>
    refine List.Pairwise.cons ?_ (ih (mid + 1) (clock + 1))
    intro r hr
    have hge := mkRows_time_ge tid (mid + 1) (clock + 1) as r hr
    show clock ≤ r.time
    omega

theorem insertByTimeAsc_of_le (m : MRow) (l : List MRow)
    (h : ∀ b ∈ l, m.time ≤ b.time) : insertByTimeAsc m l = m :: l := by
  cases l with
  | nil => rfl
  | cons b t => simp [insertByTimeAsc, h b (List.mem_cons_self b t)]

theorem sortByTimeAsc_of_sorted (l : List MRow)
    (h : l.Pairwise (fun a b => a.time ≤ b.time)) : sortByTimeAsc l = l := by
  induction l with
  | nil => rfl
  | cons a t ih =>
    obtain ⟨ha, ht⟩ := List.pairwise_cons.mp h
    have hstep : sortByTimeAsc (a :: t) = insertByTimeAsc a (sortByTimeAsc t) := rfl
    rw [hstep, ih ht, insertByTimeAsc_of_le a t ha]

theorem map_title_update_eq_self (tid t2 : String) (ck : Nat) (l : List TRow)
    (h : ∀ t ∈ l, t.id ≠ tid) :
    l.map (fun t => if t.id == tid then { t with title := t2, updatedAt := ck } else t)
      = l := by
  induction l with
  | nil => rfl
  | cons a as ih =>
    have ha : (a.id == tid) = false := by
      simp [h a (List.mem_cons_self a as)]
    rw [List.map_cons, ih (fun t ht => h t (List.mem_cons_of_mem a ht))]
    simp [ha]

end TranscriptService
end Backend

namespace Backend

/-- The create branch of `saveTranscript` in closed form: with no stored
transcript for the session, a fresh transcript row is inserted and the
turn rows appended. -/
theorem saveTranscript_create (db : TranscriptDB) (S : String) (turns1 : List TMsg)
    (title1 : Option String)
    (hno : db.transcripts.filter (fun t => t.sessionId == S) = []) :
    TranscriptService.saveTranscript db S turns1 title1
      = (uuidName db.nextUuid,
         { transcripts :=
             { id := uuidName db.nextUuid, sessionId := S,
               title := if TranscriptService.titleTruthy title1 then title1.getD ""
                        else TranscriptService.defaultTitle db,
               createdAt := db.clock, updatedAt := db.clock } :: db.transcripts
           messages := db.messages
             ++ TranscriptService.mkRows (uuidName db.nextUuid) db.nextMid
                  (db.clock + 1) turns1
           nextUuid := db.nextUuid + 1
           nextMid := db.nextMid + turns1.length
           clock := db.clock + 1 + turns1.length }) := by
  unfold TranscriptService.saveTranscript
  rw [hno]
  rfl

/-- The update branch of `saveTranscript` in closed form: with `nr` the
unique stored transcript for the session and a truthy title, the row
keeps its id, its title and `updated_at` are rewritten, and its message
rows are deleted and reinserted. -/
theorem saveTranscript_update (db1 : TranscriptDB) (S : String) (turns2 : List TMsg)
    (t2 : String) (nr : TRow)
    (hfil : db1.transcripts.filter (fun t => t.sessionId == S) = [nr])
    (ht2 : t2 ≠ "") :
    TranscriptService.saveTranscript db1 S turns2 (some t2)
      = (nr.id, TranscriptService.insertMessages
          { transcripts := db1.transcripts.map (fun t =>
              if t.id == nr.id then { t with title := t2, updatedAt := db1.clock }
              else t)
            messages := db1.messages.filter (fun m => m.transcriptId != nr.id)
            nextUuid := db1.nextUuid
            nextMid := db1.nextMid
            clock := db1.clock + 1 } nr.id turns2) := by
  have htt : TranscriptService.titleTruthy (some t2) = true := by
    simp [TranscriptService.titleTruthy, ht2]
  unfold TranscriptService.saveTranscript
  rw [hfil, htt]
  rfl


/-- Reading a transcript right after `insertMessages`: when the
transcript row heads the table with the requested id and no other stored
message row carries that id, the view holds exactly the freshly inserted
rows in insertion order. -/
theorem getTranscript_insertMessages (dbx : TranscriptDB) (tid : String)
    (turns : List TMsg) (tr : TRow) (rest : List TRow)
    (htr : dbx.transcripts = tr :: rest)
    (hid : tr.id = tid)
    (hmsg : dbx.messages.filter (fun m => m.transcriptId == tid) = []) :
    TranscriptService.getTranscript (TranscriptService.insertMessages dbx tid turns) tid
      = some { id := tr.id, sessionId := tr.sessionId, title := tr.title,
               messages := TranscriptService.mkRows tid dbx.nextMid dbx.clock turns } := by
  have hfind :
      (TranscriptService.insertMessages dbx tid turns).transcripts.find?
          (fun t => t.id == tid) = some tr := by
    show dbx.transcripts.find? (fun t => t.id == tid) = some tr
    rw [htr]
    exact List.find?_cons_of_pos _ (by simp [hid])
  have hfilter :
      (TranscriptService.insertMessages dbx tid turns).messages.filter
          (fun m => m.transcriptId == tid)
        = TranscriptService.mkRows tid dbx.nextMid dbx.clock turns := by
    show (dbx.messages ++ TranscriptService.mkRows tid dbx.nextMid dbx.clock turns).filter
        (fun m => m.transcriptId == tid) = _
    rw [List.filter_append, hmsg, List.nil_append]
    exact List.filter_eq_self.mpr
      (fun r hr => by simp [TranscriptService.mkRows_transcriptId tid dbx.nextMid dbx.clock turns r hr])
  unfold TranscriptService.getTranscript
  rw [hfind, hfilter,
    TranscriptService.sortByTimeAsc_of_sorted _
      (TranscriptService.mkRows_time_sorted tid dbx.nextMid dbx.clock turns)]

/-- The visible effect of a second `saveTranscript` call for a session
whose stored transcripts start with its unique transcript row `nr`: the
same id is returned, the view's turn set is exactly the new set, and the
view's title is the newly supplied one. -/
theorem saveTranscript_second_call (db1 : TranscriptDB) (S : String)
    (turns2 : List TMsg) (t2 : String) (nr : TRow) (rest : List TRow)
    (htr : db1.transcripts = nr :: rest)
    (hfil : db1.transcripts.filter (fun t => t.sessionId == S) = [nr])
    (hrest : ∀ t ∈ rest, t.id ≠ nr.id)
    (ht2 : t2 ≠ "") :
    (TranscriptService.saveTranscript db1 S turns2 (some t2)).1 = nr.id
    ∧ (TranscriptService.getTranscript
          (TranscriptService.saveTranscript db1 S turns2 (some t2)).2 nr.id).map
        (fun v => v.messages.map (fun m => (m.role, m.content)))
        = some (turns2.map (fun m => (m.role, m.content)))
    ∧ (TranscriptService.getTranscript
          (TranscriptService.saveTranscript db1 S turns2 (some t2)).2 nr.id).map
        (fun v => v.title) = some t2 := by
  simp only [saveTranscript_update db1 S turns2 t2 nr hfil ht2]
  have hmapT : db1.transcripts.map (fun t =>
      if t.id == nr.id then { t with title := t2, updatedAt := db1.clock } else t)
      = { nr with title := t2, updatedAt := db1.clock } :: rest := by
    rw [htr, List.map_cons,
      TranscriptService.map_title_update_eq_self nr.id t2 db1.clock rest hrest]
    simp
  have hdel : (db1.messages.filter (fun m => m.transcriptId != nr.id)).filter
      (fun m => m.transcriptId == nr.id) = [] := by
    rw [List.filter_eq_nil_iff]
    intro m hm
    have hne := (List.mem_filter.mp hm).2
    simp only [bne_iff_ne, ne_eq] at hne
    simp [hne]
  have hGT := getTranscript_insertMessages
    { transcripts := db1.transcripts.map (fun t =>
        if t.id == nr.id then { t with title := t2, updatedAt := db1.clock } else t)
      messages := db1.messages.filter (fun m => m.transcriptId != nr.id)
      nextUuid := db1.nextUuid
      nextMid := db1.nextMid
      clock := db1.clock + 1 }
    nr.id turns2 { nr with title := t2, updatedAt := db1.clock } rest
    (by exact hmapT) (by simp) (by exact hdel)
  rw [hGT]
  refine ⟨trivial, ?_, rfl⟩
  simp only [Option.map_some]
  exact congrArg some (by
    show (TranscriptService.mkRows nr.id db1.nextMid (db1.clock + 1) turns2).map
        (fun m => (m.role, m.content)) = turns2.map (fun m => (m.role, m.content))
    exact TranscriptService.mkRows_proj nr.id db1.nextMid (db1.clock + 1) turns2)

end Backend

namespace Backend

/-- C5: when no transcript exists for session `S`, `saveTranscript`
creates one under a fresh identifier; a second `saveTranscript` for `S`
with a different turn set and a supplied (non-empty) title returns the
same transcript id, replaces the stored turn set so that `getTranscript`
reflects only the second set, and updates the stored title.  The
freshness hypothesis states that `randomUUID` does not collide with a
stored transcript id. -/
theorem saveTranscript_upsert (db : TranscriptDB) (S : String)
    (turns1 turns2 : List TMsg) (title1 : Option String) (t2 : String)
    (hno : db.transcripts.filter (fun t => t.sessionId == S) = [])
    (hfreshT : ∀ t ∈ db.transcripts, t.id ≠ uuidName db.nextUuid)
    (ht2 : t2 ≠ "") :
    (TranscriptService.saveTranscript
        (TranscriptService.saveTranscript db S turns1 title1).2 S turns2 (some t2)).1
      = (TranscriptService.saveTranscript db S turns1 title1).1
    ∧ (TranscriptService.getTranscript
          (TranscriptService.saveTranscript
            (TranscriptService.saveTranscript db S turns1 title1).2 S turns2
            (some t2)).2
          (TranscriptService.saveTranscript db S turns1 title1).1).map
        (fun v => v.messages.map (fun m => (m.role, m.content)))
        = some (turns2.map (fun m => (m.role, m.content)))
    ∧ (TranscriptService.getTranscript
          (TranscriptService.saveTranscript
            (TranscriptService.saveTranscript db S turns1 title1).2 S turns2
            (some t2)).2
          (TranscriptService.saveTranscript db S turns1 title1).1).map
        (fun v => v.title) = some t2
    ∧ (TranscriptService.saveTranscript db S turns1 title1).1
        ∉ db.transcripts.map TRow.id
    ∧ (TranscriptService.saveTranscript db S turns1 title1).1
        ∈ (TranscriptService.saveTranscript db S turns1 title1).2.transcripts.map
          TRow.id := by
  simp only [saveTranscript_create db S turns1 title1 hno]
  have hfil :
      (({ id := uuidName db.nextUuid, sessionId := S,
          title := if TranscriptService.titleTruthy title1 then title1.getD ""
                   else TranscriptService.defaultTitle db,
          createdAt := db.clock, updatedAt := db.clock } : TRow)
          :: db.transcripts).filter (fun t => t.sessionId == S)
        = [{ id := uuidName db.nextUuid, sessionId := S,
             title := if TranscriptService.titleTruthy title1 then title1.getD ""
                      else TranscriptService.defaultTitle db,
             createdAt := db.clock, updatedAt := db.clock }] := by
    rw [List.filter_cons, hno]
    rw [if_pos (by simp)]
  have H := saveTranscript_second_call
    { transcripts :=
        { id := uuidName db.nextUuid, sessionId := S,
          title := if TranscriptService.titleTruthy title1 then title1.getD ""
                   else TranscriptService.defaultTitle db,
          createdAt := db.clock, updatedAt := db.clock } :: db.transcripts
      messages := db.messages
        ++ TranscriptService.mkRows (uuidName db.nextUuid) db.nextMid
             (db.clock + 1) turns1
      nextUuid := db.nextUuid + 1
      nextMid := db.nextMid + turns1.length
      clock := db.clock + 1 + turns1.length }
    S turns2 t2
    { id := uuidName db.nextUuid, sessionId := S,
      title := if TranscriptService.titleTruthy title1 then title1.getD ""
               else TranscriptService.defaultTitle db,
      createdAt := db.clock, updatedAt := db.clock }
    db.transcripts rfl (by exact hfil) (fun t ht => hfreshT t ht) ht2
  refine ⟨H.1, H.2.1, H.2.2, ?_, ?_⟩
  · intro hmem
    obtain ⟨t, ht, hid⟩ := List.mem_map.mp hmem
    exact hfreshT t ht hid
  · exact List.mem_map.mpr
      ⟨{ id := uuidName db.nextUuid, sessionId := S,
         title := if TranscriptService.titleTruthy title1 then title1.getD ""
                  else TranscriptService.defaultTitle db,
         createdAt := db.clock, updatedAt := db.clock },
       List.mem_cons_self _ _, rfl⟩

/-- C5 witness: two saves for session `S` on an empty store, with
different turn sets and title `My Title` supplied the second time. -/
theorem saveTranscript_upsert_witness :
    (TranscriptService.saveTranscript
        (TranscriptService.saveTranscript exTdbEmpty "S"
          [{ role := TRole.user, content := "q1", sources := [] },
           { role := TRole.assistant, content := "a1", sources := [] }]
          (some "First")).2 "S"
        [{ role := TRole.user, content := "q2", sources := [] }] (some "My Title")).1
      = (TranscriptService.saveTranscript exTdbEmpty "S"
          [{ role := TRole.user, content := "q1", sources := [] },
           { role := TRole.assistant, content := "a1", sources := [] }]
          (some "First")).1
    ∧ (TranscriptService.getTranscript
          (TranscriptService.saveTranscript
            (TranscriptService.saveTranscript exTdbEmpty "S"
              [{ role := TRole.user, content := "q1", sources := [] },
               { role := TRole.assistant, content := "a1", sources := [] }]
              (some "First")).2 "S"
            [{ role := TRole.user, content := "q2", sources := [] }]
            (some "My Title")).2
          (TranscriptService.saveTranscript exTdbEmpty "S"
            [{ role := TRole.user, content := "q1", sources := [] },
             { role := TRole.assistant, content := "a1", sources := [] }]
            (some "First")).1).map
        (fun v => v.messages.map (fun m => (m.role, m.content)))
        = some [(TRole.user, "q2")] :=
  ⟨(saveTranscript_upsert exTdbEmpty "S"
      [{ role := TRole.user, content := "q1", sources := [] },
       { role := TRole.assistant, content := "a1", sources := [] }]
      [{ role := TRole.user, content := "q2", sources := [] }]
      (some "First") "My Title" (by decide) (by decide) (by decide)).1,
   (saveTranscript_upsert exTdbEmpty "S"
      [{ role := TRole.user, content := "q1", sources := [] },
       { role := TRole.assistant, content := "a1", sources := [] }]
      [{ role := TRole.user, content := "q2", sources := [] }]
      (some "First") "My Title" (by decide) (by decide) (by decide)).2.1⟩

end Backend
